import Mathlib

/-!
Shallow embedding of the devika repository's per-project persistence layer
(`src/state.py`, `src/project.py`), of the send-message route of `devika.py`,
and of the archiving helpers (`src/project.py` zip export,
`src/documenter/pdf.py`, `src/filesystem/read_code.py`).

The SQLite tables are modelled as ordered lists of rows `(project, payload)`;
`session.query(...).filter(Model.project == p).first()` is the first row whose
key equals `p`, `session.add` appends a row, and mutating the fetched row and
committing replaces that first row in place.  Python `list[-1]` access raises
`IndexError` on an empty list, so every operation that indexes the last element
returns an `Option`, with `none` standing for the uncaught exception.
`datetime.now()` is external, so each operation that calls the default
snapshot/message factory takes the timestamp string as an explicit argument.
-/

set_option autoImplicit false

universe u

/-- One row of the `browser_session` sub-dictionary of an execution snapshot
(`AgentState.new_state` in `src/state.py`). -/
structure BrowserSession where
  url : Option String
  screenshot : Option String
  deriving Repr, DecidableEq

/-- The `terminal_session` sub-dictionary of an execution snapshot. -/
structure TerminalSession where
  command : Option String
  output : Option String
  title : Option String
  deriving Repr, DecidableEq

/-- An execution snapshot, the dictionary produced by `AgentState.new_state`
and stored (JSON-serialized) in the `state_stack_json` column of the
`agent_state` table. -/
structure Snapshot where
  internal_monologue : Option String
  browser_session : BrowserSession
  terminal_session : TerminalSession
  step : Option String
  message : Option String
  completed : Bool
  agent_is_active : Bool
  token_usage : Int
  timestamp : String
  deriving Repr, DecidableEq

/-- A conversation message, the dictionary produced by
`ProjectManager.new_message` in `src/project.py`. -/
structure Message where
  from_devika : Bool
  message : Option String
  timestamp : String
  deriving Repr, DecidableEq

/-- A database table: an ordered list of rows, each keyed by a project name.
Duplicate keys are possible, exactly as in the SQL tables, which have no
uniqueness constraint on `project`. -/
abbrev Table (α : Type u) := List (String × α)

/-- `session.query(M).filter(M.project == p).first()`: the payload of the first
row whose key is `p`. -/
def findRow {α : Type u} : Table α → String → Option α
  | [], _ => none
  | r :: rest, p => if r.1 = p then some r.2 else findRow rest p

/-- Committing a mutation of the fetched first row: replace the payload of the
first row keyed `p`, leaving every other row untouched. -/
def replaceFirst {α : Type u} : Table α → String → α → Table α
  | [], _, _ => []
  | r :: rest, p, s => if r.1 = p then (r.1, s) :: rest else r :: replaceFirst rest p s

/-- `session.delete` of the fetched first row keyed `p`. -/
def removeFirst {α : Type u} : Table α → String → Table α
  | [], _ => []
  | r :: rest, p => if r.1 = p then rest else r :: removeFirst rest p

/-- The state table of `src/state.py`: rows `(project, state_stack)`. -/
abbrev StateTable := Table (List Snapshot)

/-- The projects table of `src/project.py`: rows `(project, message_stack)`. -/
abbrev ProjectsTable := Table (List Message)

/-- `AgentState.new_state` (`src/state.py`): the default snapshot, with the
wall-clock timestamp passed in explicitly. -/
def new_state (now : String) : Snapshot :=
  { internal_monologue := none
    browser_session := { url := none, screenshot := none }
    terminal_session := { command := none, output := none, title := none }
    step := none
    message := none
    completed := false
    agent_is_active := true
    token_usage := 0
    timestamp := now }

/-- `AgentState.delete_state`. -/
def delete_state (db : StateTable) (project : String) : StateTable :=
  removeFirst db project

/-- `AgentState.add_to_current_state`: append to the existing first row's
stack, or insert a fresh row `[state]` when no row exists. -/
def add_to_current_state (db : StateTable) (project : String) (state : Snapshot) :
    StateTable :=
  match findRow db project with
  | some stack => replaceFirst db project (stack ++ [state])
  | none => db ++ [(project, [state])]

/-- `AgentState.get_current_state`: the whole stack, or `None` when absent. -/
def get_current_state (db : StateTable) (project : String) : Option (List Snapshot) :=
  findRow db project

/-- Python `stack[-1] = x`: replace the last element; `none` is the
`IndexError` raised on an empty list. -/
def setLastElem {α : Type u} (l : List α) (a : α) : Option (List α) :=
  match l with
  | [] => none
  | _ => some (l.dropLast ++ [a])

/-- `AgentState.update_latest_state`: overwrite the last element of the
existing stack, or insert a fresh row `[state]` when no row exists. -/
def update_latest_state (db : StateTable) (project : String) (state : Snapshot) :
    Option StateTable :=
  match findRow db project with
  | some stack => (setLastElem stack state).map (replaceFirst db project)
  | none => some (db ++ [(project, [state])])

/-- `AgentState.get_latest_state`: `stack[-1]` of the existing row (outer
`none` is the `IndexError`), or `some none` (Python `None`) when absent. -/
def get_latest_state (db : StateTable) (project : String) : Option (Option Snapshot) :=
  match findRow db project with
  | some stack => stack.getLast?.map some
  | none => some none

/-- `AgentState.set_agent_active`: patch `agent_is_active` on the last element
of the existing stack, or seed a fresh default snapshot with the flag set. -/
def set_agent_active (db : StateTable) (project : String) (is_active : Bool)
    (now : String) : Option StateTable :=
  match findRow db project with
  | some stack =>
      match stack.getLast? with
      | some last =>
          some (replaceFirst db project
            (stack.dropLast ++ [{ last with agent_is_active := is_active }]))
      | none => none
  | none =>
      some (db ++ [(project, [{ new_state now with agent_is_active := is_active }])])

/-- `AgentState.is_agent_active`: the flag of `stack[-1]` (outer `none` is the
`IndexError`), or `some none` (Python `None`) when no row exists. -/
def is_agent_active (db : StateTable) (project : String) : Option (Option Bool) :=
  match findRow db project with
  | some stack => stack.getLast?.map (fun s => some s.agent_is_active)
  | none => some none

/-- `AgentState.set_agent_completed`: patch `completed` on the last element of
the existing stack, or seed a fresh default snapshot with the flag set. -/
def set_agent_completed (db : StateTable) (project : String) (is_completed : Bool)
    (now : String) : Option StateTable :=
  match findRow db project with
  | some stack =>
      match stack.getLast? with
      | some last =>
          some (replaceFirst db project
            (stack.dropLast ++ [{ last with completed := is_completed }]))
      | none => none
  | none =>
      some (db ++ [(project, [{ new_state now with completed := is_completed }])])

/-- `AgentState.is_agent_completed`: the flag of `stack[-1]` (outer `none` is
the `IndexError`), or `some none` (Python `None`) when no row exists. -/
def is_agent_completed (db : StateTable) (project : String) : Option (Option Bool) :=
  match findRow db project with
  | some stack => stack.getLast?.map (fun s => some s.completed)
  | none => some none

/-- `AgentState.update_token_usage`: add `token_usage` to the last element of
the existing stack, or seed a fresh default snapshot whose usage is set to the
given amount. -/
def update_token_usage (db : StateTable) (project : String) (token_usage : Int)
    (now : String) : Option StateTable :=
  match findRow db project with
  | some stack =>
      match stack.getLast? with
      | some last =>
          some (replaceFirst db project
            (stack.dropLast ++ [{ last with token_usage := last.token_usage + token_usage }]))
      | none => none
  | none =>
      some (db ++ [(project, [{ new_state now with token_usage := token_usage }])])

/-- `AgentState.get_latest_token_usage`: usage of `stack[-1]` (outer `none` is
the `IndexError`), or `some 0` when no row exists. -/
def get_latest_token_usage (db : StateTable) (project : String) : Option Int :=
  match findRow db project with
  | some stack => stack.getLast?.map (fun s => s.token_usage)
  | none => some 0

/-- `ProjectManager.new_message` (`src/project.py`): the default message, with
the wall-clock timestamp passed in explicitly. -/
def new_message (now : String) : Message :=
  { from_devika := true, message := none, timestamp := now }

/-- `ProjectManager.create_project`: unconditionally insert a row
`(project, [])`; there is no existence check and no uniqueness constraint. -/
def create_project (db : ProjectsTable) (project : String) : ProjectsTable :=
  db ++ [(project, [])]

/-- `ProjectManager.delete_project`. -/
def delete_project (db : ProjectsTable) (project : String) : ProjectsTable :=
  removeFirst db project

/-- `ProjectManager.add_message_to_project`: append to the existing first
row's stack, or insert a fresh row `[message]` when no row exists. -/
def add_message_to_project (db : ProjectsTable) (project : String) (message : Message) :
    ProjectsTable :=
  match findRow db project with
  | some stack => replaceFirst db project (stack ++ [message])
  | none => db ++ [(project, [message])]

/-- `ProjectManager.get_messages`: the whole message stack, or `None` when the
project has no row. -/
def get_messages (db : ProjectsTable) (project : String) : Option (List Message) :=
  findRow db project

/-- `ProjectManager.validate_last_message_is_from_user`: true exactly when a
row exists, its stack is non-empty, and the last message is not from devika. -/
def validate_last_message_is_from_user (db : ProjectsTable) (project : String) : Bool :=
  match findRow db project with
  | some stack =>
      match stack.getLast? with
      | some m => !m.from_devika
      | none => false
  | none => false

/-- Python truthiness of an `Optional[bool]`: `None` and `False` are falsy. -/
def pyTruthy (b : Option Bool) : Bool :=
  b.getD false

/-- The `/api/send-message` route of `devika.py`: build a user message, append
it to the project's message stack, then query `is_agent_completed` and start
the detached `subsequent_execute` task only when the answer is truthy.  The
returned `Bool` records whether the task thread was started; the outer `none`
is an exception escaping from `is_agent_completed`. -/
def send_message (pdb : ProjectsTable) (sdb : StateTable) (project : String)
    (message : String) (now : String) : Option (ProjectsTable × Bool) :=
  let m := { new_message now with message := some message, from_devika := false }
  let pdb2 := add_message_to_project pdb project m
  (is_agent_completed sdb project).map (fun c => (pdb2, pyTruthy c))

/-- `PDF.markdown_to_pdf` (`src/documenter/pdf.py`).  The markdown renderer
and `pisa.CreatePDF` are external collaborators; the model takes the pisa
error count (`pisa_status.err`) as a parameter.  A nonzero count raises
`Exception("Error generating PDF")`; otherwise the function returns
`os.path.join(pdf_dir, project_name + ".pdf")`. -/
def markdown_to_pdf (pisaErr : Nat) (pdf_dir : String) (project_name : String) :
    Except String String :=
  let out_file_path := pdf_dir ++ "/" ++ (project_name ++ ".pdf")
  if pisaErr ≠ 0 then Except.error "Error generating PDF"
  else Except.ok out_file_path

/-- `ReadCode.read_directory` (`src/filesystem/read_code.py`).  The directory
walk and `open` are external; the model takes the walked files as a list of
`(path, content)` pairs where `none` means opening or reading the file raised.
The loop appends an entry per readable file and the bare `except: pass` skips
the rest, so the function is total. -/
def read_directory (files : List (String × Option String)) :
    List (String × String) :=
  files.foldl
    (fun files_list f =>
      match f.2 with
      | some code => files_list ++ [(f.1, code)]
      | none => files_list)
    []

/-- The name normalization `project.lower().replace(" ", "-")` of
`ProjectManager.get_project_path`, rendered per character: the replaced
pattern is the single character `" "`, so the composition maps each space to a
hyphen and lower-cases every other character. -/
def normName (project : String) : String :=
  String.mk (project.data.map (fun c => if c = ' ' then '-' else c.toLower))

/-- `ProjectManager.get_project_path`: `os.path.join` of the projects
directory with the lower-cased, hyphenated project name. -/
def get_project_path (projects_dir : String) (project : String) : String :=
  projects_dir ++ "/" ++ normName project

/-- `ProjectManager.get_zip_path` and the `zip_path` of `project_to_zip`:
the project path with `.zip` appended. -/
def get_zip_path (projects_dir : String) (project : String) : String :=
  get_project_path projects_dir project ++ ".zip"

/-- One step of `os.path.normpath` component processing: a `".."` component
pops the previous component. -/
def normParts (parts : List String) : List String :=
  parts.foldl (fun acc c => if c = ".." then acc.dropLast else acc ++ [c]) []

/-- Component-level `os.path.relpath(path, start)` for the case where the
normalized start is a prefix of the normalized path: drop that prefix. -/
def dropStart : List String → List String → Option (List String)
  | xs, [] => some xs
  | [], _ :: _ => none
  | x :: xs, y :: ys => if x = y then dropStart xs ys else none

/-- The `arcname` computed by `ProjectManager.project_to_zip` for one walked
file: `os.path.relpath(os.path.join(root, file), os.path.join(project_path, ".."))`,
at the path-component level.  `projects_dir_parts` are the components of the
configured projects directory and `rel` the components of the file's path
inside the project directory. -/
def zip_arcname (projects_dir_parts : List String) (project : String)
    (rel : List String) : Option (List String) :=
  dropStart (normParts (projects_dir_parts ++ [normName project] ++ rel))
    (normParts (projects_dir_parts ++ [normName project] ++ [".."]))

/-- `ProjectManager.project_to_zip`: the list of entry names written into the
archive, one per file produced by `os.walk` of the project directory (given
here as component paths relative to the project directory, in walk order),
each rendered with `/` separators. -/
def project_to_zip_entries (projects_dir_parts : List String) (project : String) :
    List (List String) → Option (List String)
  | [] => some []
  | w :: ws =>
      match zip_arcname projects_dir_parts project w,
          project_to_zip_entries projects_dir_parts project ws with
      | some e, some es => some (String.intercalate "/" e :: es)
      | _, _ => none

/-- The length of the snapshot sequence the operations of `src/state.py` act
on for project `p`: the stack of the first matching row, an absent row
counting as length `0`. -/
def stackLen (db : StateTable) (p : String) : Nat :=
  ((findRow db p).getD []).length

/-- Well-formedness of the state table: every row holds a non-empty snapshot
stack. -/
def WFStateTable (db : StateTable) : Prop :=
  ∀ r ∈ db, r.2 ≠ ([] : List Snapshot)

theorem findRow_replaceFirst_self {α : Type u} {db : Table α} {p : String} {st : α}
    (s : α) (h : findRow db p = some st) :
    findRow (replaceFirst db p s) p = some s := by
  induction db with
  | nil => simp [findRow] at h
  | cons r rest ih =>
      by_cases hr : r.1 = p
      · simp [findRow, replaceFirst, hr]
      · simp [findRow, replaceFirst, hr] at h ⊢
        exact ih h

theorem findRow_append_single_of_none {α : Type u} {db : Table α} {p : String}
    (s : α) (h : findRow db p = none) :
    findRow (db ++ [(p, s)]) p = some s := by
  induction db with
  | nil => simp [findRow]
  | cons r rest ih =>
      by_cases hr : r.1 = p
      · simp [findRow, hr] at h
      · simp [findRow, hr] at h ⊢
        exact ih h

theorem findRow_mem {α : Type u} {db : Table α} {p : String} {st : α}
    (h : findRow db p = some st) : (p, st) ∈ db := by
  induction db with
  | nil => simp [findRow] at h
  | cons r rest ih =>
      obtain ⟨a, b⟩ := r
      by_cases hr : a = p
      · simp [findRow, hr] at h
        subst h
        subst hr
        exact List.mem_cons_self _ _
      · simp [findRow, hr] at h
        exact List.mem_cons_of_mem _ (ih h)

theorem mem_replaceFirst {α : Type u} {db : Table α} {p : String} {s : α}
    {r : String × α} (h : r ∈ replaceFirst db p s) : r = (p, s) ∨ r ∈ db := by
  induction db with
  | nil => simp [replaceFirst] at h
  | cons q rest ih =>
      by_cases hq : q.1 = p
      · simp [replaceFirst, hq] at h
        rcases h with h | h
        · left
          exact h
        · right
          exact List.mem_cons_of_mem _ h
      · simp [replaceFirst, hq] at h
        rcases h with h | h
        · right
          simp [h]
        · rcases ih h with h2 | h2
          · left
            exact h2
          · right
            exact List.mem_cons_of_mem _ h2

theorem mem_removeFirst {α : Type u} {db : Table α} {p : String}
    {r : String × α} (h : r ∈ removeFirst db p) : r ∈ db := by
  induction db with
  | nil => simp [removeFirst] at h
  | cons q rest ih =>
      by_cases hq : q.1 = p
      · simp [removeFirst, hq] at h
        exact List.mem_cons_of_mem _ h
      · simp [removeFirst, hq] at h
        rcases h with h | h
        · simp [h]
        · exact List.mem_cons_of_mem _ (ih h)

theorem setLastElem_of_ne_nil {α : Type u} {l : List α} (a : α) (h : l ≠ []) :
    setLastElem l a = some (l.dropLast ++ [a]) := by
  cases l with
  | nil => exact absurd rfl h
  | cons x xs => rfl

theorem getLast?_some_of_ne_nil {α : Type u} {l : List α} (h : l ≠ []) :
    ∃ a, l.getLast? = some a :=
  Option.isSome_iff_exists.mp (List.getLast?_isSome.mpr h)

/-- C2: for every project whose state log is non-empty, `update_latest_state`
leaves the length of the snapshot sequence unchanged, and for every project,
`add_to_current_state` grows it by exactly one, an absent log counting as
length `0`. -/
theorem C2_update_keeps_length_add_grows_by_one :
    (∀ (db : StateTable) (p : String) (stack : List Snapshot) (s : Snapshot),
      findRow db p = some stack → stack ≠ [] →
      ∃ db2, update_latest_state db p s = some db2 ∧ stackLen db2 p = stackLen db p) ∧
    (∀ (db : StateTable) (p : String) (s : Snapshot),
      stackLen (add_to_current_state db p s) p = stackLen db p + 1) := by
  constructor
  · intro db p stack s h hne
    refine ⟨replaceFirst db p (stack.dropLast ++ [s]), ?_, ?_⟩
    · simp [update_latest_state, h, setLastElem_of_ne_nil s hne]
    · have hlen : 0 < stack.length := List.length_pos.mpr hne
      simp [stackLen, h, findRow_replaceFirst_self _ h, List.length_dropLast]
      omega
  · intro db p s
    cases hf : findRow db p with
    | some stack =>
        simp [add_to_current_state, hf, stackLen, findRow_replaceFirst_self _ hf]
    | none =>
        simp [add_to_current_state, hf, stackLen, findRow_append_single_of_none _ hf]

/-- C2 witness: instantiated on a one-row table with a one-element stack and
on the empty table. -/
theorem C2_update_keeps_length_add_grows_by_one_witness :
    findRow [("demo", [new_state "t0"])] "demo" = some [new_state "t0"] ∧
    [new_state "t0"] ≠ ([] : List Snapshot) ∧
    ∃ db2, update_latest_state [("demo", [new_state "t0"])] "demo" (new_state "t1")
        = some db2 ∧
      stackLen db2 "demo" = stackLen [("demo", [new_state "t0"])] "demo" := by
  refine ⟨by decide, by decide, ?_⟩
  exact C2_update_keeps_length_add_grows_by_one.1
    [("demo", [new_state "t0"])] "demo" [new_state "t0"] (new_state "t1")
    (by decide) (by decide)

/-- C3: `update_token_usage p k` on an existing non-empty log adds exactly `k`
to `get_latest_token_usage p`; on a project with no row it makes the reported
usage equal to `k` (having been `0` before). -/
theorem C3_token_usage_additive :
    (∀ (db : StateTable) (p : String) (stack : List Snapshot) (k : Int) (now : String),
      findRow db p = some stack → stack ≠ [] →
      ∃ db2 t, update_token_usage db p k now = some db2 ∧
        get_latest_token_usage db p = some t ∧
        get_latest_token_usage db2 p = some (t + k)) ∧
    (∀ (db : StateTable) (p : String) (k : Int) (now : String),
      findRow db p = none →
      get_latest_token_usage db p = some 0 ∧
      ∃ db2, update_token_usage db p k now = some db2 ∧
        get_latest_token_usage db2 p = some k) := by
  constructor
  · intro db p stack k now h hne
    obtain ⟨last, hlast⟩ := getLast?_some_of_ne_nil hne
    refine ⟨replaceFirst db p
        (stack.dropLast ++ [{ last with token_usage := last.token_usage + k }]),
      last.token_usage, ?_, ?_, ?_⟩
    · simp [update_token_usage, h, hlast]
    · simp [get_latest_token_usage, h, hlast]
    · simp [get_latest_token_usage, findRow_replaceFirst_self _ h]
  · intro db p k now h
    refine ⟨by simp [get_latest_token_usage, h],
      db ++ [(p, [{ new_state now with token_usage := k }])], ?_, ?_⟩
    · simp [update_token_usage, h]
    · simp [get_latest_token_usage, findRow_append_single_of_none _ h]

/-- C3 witness: instantiated on a table whose row for the project carries a
usage of `2`, adding `5`, and on the empty table, adding `7`. -/
theorem C3_token_usage_additive_witness :
    (∃ db2 t, update_token_usage
          [("demo", [{ new_state "t0" with token_usage := 2 }])] "demo" 5 "t1"
        = some db2 ∧
      get_latest_token_usage [("demo", [{ new_state "t0" with token_usage := 2 }])] "demo"
        = some t ∧
      get_latest_token_usage db2 "demo" = some (t + 5)) ∧
    (∃ db2, update_token_usage ([] : StateTable) "demo" 7 "t1" = some db2 ∧
      get_latest_token_usage db2 "demo" = some 7) := by
  constructor
  · exact C3_token_usage_additive.1
      [("demo", [{ new_state "t0" with token_usage := 2 }])] "demo"
      [{ new_state "t0" with token_usage := 2 }] 5 "t1" (by decide) (by decide)
  · exact (C3_token_usage_additive.2 ([] : StateTable) "demo" 7 "t1" (by decide)).2

/-- C4: on a non-empty state log, each patch operation rewrites only its
target field of the last snapshot: the resulting stack for the project is the
unchanged older snapshots, in order, followed by the last snapshot with just
that one field replaced. -/
theorem C4_patch_operations_frame :
    ∀ (db : StateTable) (p : String) (older : List Snapshot) (last : Snapshot)
      (b c : Bool) (k : Int) (now : String),
    findRow db p = some (older ++ [last]) →
    (∃ db2, set_agent_active db p b now = some db2 ∧
      findRow db2 p = some (older ++ [{ last with agent_is_active := b }])) ∧
    (∃ db2, set_agent_completed db p c now = some db2 ∧
      findRow db2 p = some (older ++ [{ last with completed := c }])) ∧
    (∃ db2, update_token_usage db p k now = some db2 ∧
      findRow db2 p = some (older ++ [{ last with token_usage := last.token_usage + k }])) := by
  intro db p older last b c k now h
  refine ⟨⟨replaceFirst db p (older ++ [{ last with agent_is_active := b }]), ?_, ?_⟩,
    ⟨replaceFirst db p (older ++ [{ last with completed := c }]), ?_, ?_⟩,
    ⟨replaceFirst db p (older ++ [{ last with token_usage := last.token_usage + k }]), ?_, ?_⟩⟩
  · simp [set_agent_active, h, List.getLast?_concat, List.dropLast_concat]
  · exact findRow_replaceFirst_self _ h
  · simp [set_agent_completed, h, List.getLast?_concat, List.dropLast_concat]
  · exact findRow_replaceFirst_self _ h
  · simp [update_token_usage, h, List.getLast?_concat, List.dropLast_concat]
  · exact findRow_replaceFirst_self _ h

/-- C4 witness: instantiated on a two-snapshot stack. -/
theorem C4_patch_operations_frame_witness :
    findRow [("demo", [new_state "t0", new_state "t1"])] "demo"
      = some ([new_state "t0"] ++ [new_state "t1"]) ∧
    ∃ db2, set_agent_active [("demo", [new_state "t0", new_state "t1"])] "demo" false "t2"
        = some db2 ∧
      findRow db2 "demo"
        = some ([new_state "t0"] ++ [{ new_state "t1" with agent_is_active := false }]) := by
  refine ⟨by decide, ?_⟩
  exact (C4_patch_operations_frame [("demo", [new_state "t0", new_state "t1"])] "demo"
    [new_state "t0"] (new_state "t1") false true 3 "t2" (by decide)).1

theorem WFStateTable_replaceFirst {db : StateTable} {p : String} {s : List Snapshot}
    (h : WFStateTable db) (hs : s ≠ []) : WFStateTable (replaceFirst db p s) := by
  intro r hr
  rcases mem_replaceFirst hr with he | hm
  · rw [he]
    exact hs
  · exact h r hm

theorem WFStateTable_append_single {db : StateTable} {p : String} {s : List Snapshot}
    (h : WFStateTable db) (hs : s ≠ []) : WFStateTable (db ++ [(p, s)]) := by
  intro r hr
  rcases List.mem_append.mp hr with hm | hm
  · exact h r hm
  · simp at hm
    rw [hm]
    exact hs

/-- C10: starting from a table whose rows all hold non-empty stacks (as every
row the operations ever create does), each mutating operation succeeds and
preserves that invariant, and each read of the last stack element succeeds —
no operation ever indexes into an empty sequence. -/
theorem C10_stacks_never_empty :
    ∀ (db : StateTable) (p : String) (s : Snapshot) (b c : Bool) (k : Int) (now : String),
    WFStateTable db →
    WFStateTable (add_to_current_state db p s) ∧
    (∃ db2, update_latest_state db p s = some db2 ∧ WFStateTable db2) ∧
    (∃ db2, set_agent_active db p b now = some db2 ∧ WFStateTable db2) ∧
    (∃ db2, set_agent_completed db p c now = some db2 ∧ WFStateTable db2) ∧
    (∃ db2, update_token_usage db p k now = some db2 ∧ WFStateTable db2) ∧
    WFStateTable (delete_state db p) ∧
    (get_latest_state db p).isSome ∧
    (is_agent_active db p).isSome ∧
    (is_agent_completed db p).isSome ∧
    (get_latest_token_usage db p).isSome := by
  intro db p s b c k now h
  cases hf : findRow db p with
  | some stack =>
      have hne : stack ≠ [] := h _ (findRow_mem hf)
      obtain ⟨last, hlast⟩ := getLast?_some_of_ne_nil hne
      refine ⟨?_, ?_, ?_, ?_, ?_, ?_, ?_, ?_, ?_, ?_⟩
      · simp only [add_to_current_state, hf]
        exact WFStateTable_replaceFirst h (by simp)
      · refine ⟨replaceFirst db p (stack.dropLast ++ [s]), ?_, ?_⟩
        · simp [update_latest_state, hf, setLastElem_of_ne_nil s hne]
        · exact WFStateTable_replaceFirst h (by simp)
      · refine ⟨replaceFirst db p
            (stack.dropLast ++ [{ last with agent_is_active := b }]), ?_, ?_⟩
        · simp [set_agent_active, hf, hlast]
        · exact WFStateTable_replaceFirst h (by simp)
      · refine ⟨replaceFirst db p
            (stack.dropLast ++ [{ last with completed := c }]), ?_, ?_⟩
        · simp [set_agent_completed, hf, hlast]
        · exact WFStateTable_replaceFirst h (by simp)
      · refine ⟨replaceFirst db p
            (stack.dropLast ++ [{ last with token_usage := last.token_usage + k }]), ?_, ?_⟩
        · simp [update_token_usage, hf, hlast]
        · exact WFStateTable_replaceFirst h (by simp)
      · exact fun r hr => h r (mem_removeFirst hr)
      · simp [get_latest_state, hf, hlast]
      · simp [is_agent_active, hf, hlast]
      · simp [is_agent_completed, hf, hlast]
      · simp [get_latest_token_usage, hf, hlast]
  | none =>
      refine ⟨?_, ?_, ?_, ?_, ?_, ?_, ?_, ?_, ?_, ?_⟩
      · simp only [add_to_current_state, hf]
        exact WFStateTable_append_single h (by simp)
      · refine ⟨db ++ [(p, [s])], ?_, ?_⟩
        · simp [update_latest_state, hf]
        · exact WFStateTable_append_single h (by simp)
      · refine ⟨db ++ [(p, [{ new_state now with agent_is_active := b }])], ?_, ?_⟩
        · simp [set_agent_active, hf]
        · exact WFStateTable_append_single h (by simp)
      · refine ⟨db ++ [(p, [{ new_state now with completed := c }])], ?_, ?_⟩
        · simp [set_agent_completed, hf]
        · exact WFStateTable_append_single h (by simp)
      · refine ⟨db ++ [(p, [{ new_state now with token_usage := k }])], ?_, ?_⟩
        · simp [update_token_usage, hf]
        · exact WFStateTable_append_single h (by simp)
      · exact fun r hr => h r (mem_removeFirst hr)
      · simp [get_latest_state, hf]
      · simp [is_agent_active, hf]
      · simp [is_agent_completed, hf]
      · simp [get_latest_token_usage, hf]

/-- C10 witness: instantiated on a one-row well-formed table. -/
theorem C10_stacks_never_empty_witness :
    WFStateTable [("demo", [new_state "t0"])] ∧
    WFStateTable
      (add_to_current_state [("demo", [new_state "t0"])] "demo" (new_state "t1")) := by
  have hwf : WFStateTable [("demo", [new_state "t0"])] := by
    intro r hr
    simp at hr
    rw [hr]
    simp
  exact ⟨hwf,
    (C10_stacks_never_empty [("demo", [new_state "t0"])] "demo" (new_state "t1")
      true true 3 "t2" hwf).1⟩

theorem foldl_add_message_to_project {db : ProjectsTable} {p : String}
    {acc : List Message} (msgs : List Message) (h : findRow db p = some acc) :
    findRow (msgs.foldl (fun d m => add_message_to_project d p m) db) p
      = some (acc ++ msgs) := by
  induction msgs generalizing db acc with
  | nil => simpa using h
  | cons m rest ih =>
      have hstep : findRow (add_message_to_project db p m) p = some (acc ++ [m]) := by
        simp only [add_message_to_project, h]
        exact findRow_replaceFirst_self _ h
      simpa using ih hstep

/-- C5: appending any sequence of messages to a freshly created project and
then reading the log returns exactly those messages in append order. -/
theorem C5_messages_returned_in_append_order :
    ∀ (db : ProjectsTable) (p : String) (msgs : List Message),
    findRow db p = none →
    get_messages (msgs.foldl (fun d m => add_message_to_project d p m)
      (create_project db p)) p = some msgs := by
  intro db p msgs h
  have hcreate : findRow (create_project db p) p = some [] :=
    findRow_append_single_of_none _ h
  simpa [get_messages] using foldl_add_message_to_project msgs hcreate

/-- C5 witness: two messages appended to a fresh project on an empty table. -/
theorem C5_messages_returned_in_append_order_witness :
    findRow ([] : ProjectsTable) "demo" = none ∧
    get_messages
      ([{ new_message "t0" with message := some "hello", from_devika := false },
        { new_message "t1" with message := some "hi there" }].foldl
        (fun d m => add_message_to_project d "demo" m)
        (create_project ([] : ProjectsTable) "demo")) "demo"
      = some [{ new_message "t0" with message := some "hello", from_devika := false },
          { new_message "t1" with message := some "hi there" }] :=
  ⟨by decide, C5_messages_returned_in_append_order ([] : ProjectsTable) "demo"
    [{ new_message "t0" with message := some "hello", from_devika := false },
      { new_message "t1" with message := some "hi there" }] (by decide)⟩

/-- C1 counterexample: on a project with no execution-state row,
`is_agent_completed` returns Python `None`, which is falsy, so the
send-message route does NOT start the resume task — the claim that sending a
message results in the resume task being started is false. -/
theorem C1_counterexample :
    findRow ([] : StateTable) "demo" = none ∧
    is_agent_completed ([] : StateTable) "demo" = some none ∧
    (send_message ([] : ProjectsTable) ([] : StateTable) "demo" "hello" "t0").map Prod.snd
      = some false := by
  decide

/-- C1 amended: for every project with no execution-state row, the completion
query returns Python `None` (falsy), and the send-message route appends the
user message to the message log but does not launch the detached resume task;
the task is launched only when the query is truthy. -/
theorem C1_no_state_row_appends_but_does_not_resume :
    ∀ (pdb : ProjectsTable) (sdb : StateTable) (p msg now : String),
    findRow sdb p = none →
    is_agent_completed sdb p = some none ∧
    send_message pdb sdb p msg now
      = some (add_message_to_project pdb p
          { new_message now with message := some msg, from_devika := false }, false) := by
  intro pdb sdb p msg now h
  constructor
  · simp [is_agent_completed, h]
  · simp [send_message, is_agent_completed, h, pyTruthy]

/-- C1 witness: instantiated on empty tables. -/
theorem C1_no_state_row_appends_but_does_not_resume_witness :
    is_agent_completed ([] : StateTable) "demo" = some none ∧
    send_message ([] : ProjectsTable) ([] : StateTable) "demo" "hello" "t0"
      = some (add_message_to_project ([] : ProjectsTable) "demo"
          { new_message "t0" with message := some "hello", from_devika := false }, false) :=
  C1_no_state_row_appends_but_does_not_resume ([] : ProjectsTable) ([] : StateTable)
    "demo" "hello" "t0" (by decide)

/-- C6 counterexample: with a row named `demo` already present, calling
`create_project "demo"` is not a no-op — it inserts a second row for the same
name. -/
theorem C6_counterexample :
    create_project [("demo", ([] : List Message))] "demo"
      = [("demo", []), ("demo", [])] ∧
    create_project [("demo", ([] : List Message))] "demo"
      ≠ [("demo", ([] : List Message))] := by
  decide

/-- C6 amended: `create_project` never raises, but it is not idempotent: it
unconditionally appends a fresh row `(project, [])`, so calling it when a
project of that name already exists adds a duplicate row, raising the number
of rows carrying that name by one. -/
theorem C6_create_project_always_inserts_row :
    ∀ (db : ProjectsTable) (p : String),
    create_project db p = db ++ [(p, [])] ∧
    (create_project db p).countP (fun r => r.1 == p)
      = db.countP (fun r => r.1 == p) + 1 := by
  intro db p
  refine ⟨rfl, ?_⟩
  simp [create_project, List.countP_append, List.countP_cons]

theorem string_append_assoc (a b c : String) : a ++ b ++ c = a ++ (b ++ c) := by
  apply String.ext
  simp [String.data_append, List.append_assoc]

theorem foldl_normStep_no_dotdot :
    ∀ (l : List String) (acc : List String), ".." ∉ l →
      l.foldl (fun acc2 c => if c = ".." then acc2.dropLast else acc2 ++ [c]) acc
        = acc ++ l := by
  intro l
  induction l with
  | nil => intro acc _; simp
  | cons x xs ih =>
      intro acc h
      have hx : x ≠ ".." := fun he => h (by simp [he])
      have hxs : ".." ∉ xs := fun hm => h (List.mem_cons_of_mem _ hm)
      simp [hx, ih (acc ++ [x]) hxs]

theorem normParts_of_no_dotdot (l : List String) (h : ".." ∉ l) : normParts l = l := by
  simpa using foldl_normStep_no_dotdot l [] h

theorem normParts_concat_dotdot (l : List String) (h : ".." ∉ l) :
    normParts (l ++ [".."]) = l.dropLast := by
  unfold normParts
  rw [List.foldl_append]
  have h1 := foldl_normStep_no_dotdot l [] h
  unfold normParts at *
  simp [h1]

theorem dropStart_append_left : ∀ (xs ys : List String), dropStart (xs ++ ys) xs = some ys := by
  intro xs
  induction xs with
  | nil =>
      intro ys
      cases ys with
      | nil => rfl
      | cons y ys2 => rfl
  | cons x xs2 ih =>
      intro ys
      simp [dropStart, ih]

theorem zip_arcname_relative_to_parent (pd : List String) (p : String) (rel : List String)
    (hpd : ".." ∉ pd) (hp : normName p ≠ "..") (hrel : ".." ∉ rel) :
    zip_arcname pd p rel = some ([normName p] ++ rel) := by
  have hall : ".." ∉ (pd ++ [normName p]) ++ rel := by
    intro hm
    rcases List.mem_append.mp hm with hm | hm
    · rcases List.mem_append.mp hm with hm | hm
      · exact hpd hm
      · simp at hm
        exact hp hm.symm
    · exact hrel hm
  have hpath : ".." ∉ pd ++ [normName p] := by
    intro hm
    rcases List.mem_append.mp hm with hm | hm
    · exact hpd hm
    · simp at hm
      exact hp hm.symm
  unfold zip_arcname
  rw [normParts_of_no_dotdot _ hall, normParts_concat_dotdot _ hpath,
    List.dropLast_concat, List.append_assoc]
  exact dropStart_append_left pd ([normName p] ++ rel)

/-- C7: for a project directory holding exactly the files `a.txt` and
`sub/b.txt`, the zip export's entry names are exactly
`<project-dir-name>/a.txt` and `<project-dir-name>/sub/b.txt` — paths
relative to the parent of the project directory — and the archive is written
at the deterministic sibling path `<project path>.zip`. -/
theorem C7_zip_entries_relative_to_parent :
    ∀ (projects_dir_parts : List String) (dir p : String),
    ".." ∉ projects_dir_parts → normName p ≠ ".." →
    project_to_zip_entries projects_dir_parts p [["a.txt"], ["sub", "b.txt"]]
      = some [normName p ++ "/a.txt", normName p ++ "/sub/b.txt"] ∧
    get_zip_path dir p = get_project_path dir p ++ ".zip" := by
  intro pd dir p hpd hp
  constructor
  · have h1 := zip_arcname_relative_to_parent pd p ["a.txt"] hpd hp (by decide)
    have h2 := zip_arcname_relative_to_parent pd p ["sub", "b.txt"] hpd hp (by decide)
    simp [project_to_zip_entries, h1, h2, String.intercalate, String.intercalate.go,
      string_append_assoc]
  · rfl

/-- C7 witness: instantiated on a concrete projects directory and the project
name `My App`, whose directory name is `my-app`. -/
theorem C7_zip_entries_relative_to_parent_witness :
    project_to_zip_entries ["data", "projects"] "My App" [["a.txt"], ["sub", "b.txt"]]
      = some [normName "My App" ++ "/a.txt", normName "My App" ++ "/sub/b.txt"] ∧
    get_zip_path "data/projects" "My App"
      = get_project_path "data/projects" "My App" ++ ".zip" :=
  (C7_zip_entries_relative_to_parent ["data", "projects"] "data/projects" "My App"
    (by decide) (by decide))

/-- C8: `markdown_to_pdf` raises `Exception("Error generating PDF")` exactly
when the pisa status reports a nonzero error count, and otherwise returns the
path `<project>.pdf` inside the configured pdf directory. -/
theorem C8_pdf_error_propagated :
    ∀ (pisaErr : Nat) (dir proj : String),
    (pisaErr ≠ 0 → markdown_to_pdf pisaErr dir proj
        = Except.error "Error generating PDF") ∧
    (pisaErr = 0 → markdown_to_pdf pisaErr dir proj
        = Except.ok (dir ++ "/" ++ (proj ++ ".pdf"))) := by
  intro e dir proj
  constructor
  · intro h
    simp [markdown_to_pdf, h]
  · intro h
    simp [markdown_to_pdf, h]

/-- C8 witness: a failing conversion (error count `1`) and a succeeding one
(error count `0`). -/
theorem C8_pdf_error_propagated_witness :
    ((1 : Nat) ≠ 0 ∧ markdown_to_pdf 1 "pdfs" "demo"
        = Except.error "Error generating PDF") ∧
    ((0 : Nat) = 0 ∧ markdown_to_pdf 0 "pdfs" "demo"
        = Except.ok ("pdfs" ++ "/" ++ ("demo" ++ ".pdf"))) :=
  ⟨⟨by decide, (C8_pdf_error_propagated 1 "pdfs" "demo").1 (by decide)⟩,
    ⟨rfl, (C8_pdf_error_propagated 0 "pdfs" "demo").2 rfl⟩⟩

theorem foldl_read_step :
    ∀ (files : List (String × Option String)) (acc : List (String × String)),
      files.foldl
        (fun files_list f =>
          match f.2 with
          | some code => files_list ++ [(f.1, code)]
          | none => files_list) acc
      = acc ++ files.filterMap (fun f => f.2.map (fun code => (f.1, code))) := by
  intro files
  induction files with
  | nil =>
      intro acc
      simp
  | cons f rest ih =>
      intro acc
      obtain ⟨path, c⟩ := f
      cases c with
      | some code => simp [ih]
      | none => simp [ih]

/-- C9: a directory scan skips every unreadable file silently and returns
exactly one entry per readable file, in walk order — a total function, never a
failure. -/
theorem C9_read_directory_best_effort :
    ∀ (files : List (String × Option String)),
    read_directory files
      = files.filterMap (fun f => f.2.map (fun code => (f.1, code))) := by
  intro files
  simpa [read_directory] using foldl_read_step files []
